import Mathlib

/-!
Verification development for the WagerBrain staking/bankroll engine.

The Python sources (WagerBrain/odds.py, probs.py, utils.py, risk.py, wagr.py,
brain.py) are shallowly embedded below.  Conventions of the embedding:

* Python `float` and `decimal.Decimal` values are both modelled as exact
  rationals (`ℚ`); the spec treats the arithmetic as real-number arithmetic,
  and no claim depends on binary-float rounding.
* Python `int(x)` truncation toward zero is `truncQ`; Python `round(x, k)` and
  `Decimal.quantize` (default `ROUND_HALF_EVEN`) are `rhe`-based half-even
  roundings.
* Code that can raise is modelled with `Except String`; because Python
  exceptions do not roll back earlier assignments, engine methods return the
  state reached so far together with the `Except` outcome.
* `logging` calls are modelled only where the claims mention them; note that
  `risk.py` and `wagr.py` reference the name `logging` without importing it,
  which the embedding reproduces as a raised `NameError` (risk.py) and as an
  absent log line (wagr.py).
* String rationales (`why`) keep the literal constant parts of the Python
  f-strings; purely numeric float formatting (`:.1%`, `:.2f` …) that no claim
  inspects is abbreviated.
-/

namespace WagerBrain

/-- Python `int(x)` applied to a rational: truncation toward zero. -/
def truncQ (q : ℚ) : ℤ :=
  if 0 ≤ q then ⌊q⌋ else -⌊-q⌋

/-- Round a rational to the nearest integer, ties to even — the rounding used
by Python `round` and by `decimal.Decimal.quantize` (ROUND_HALF_EVEN). -/
def rhe (x : ℚ) : ℤ :=
  let f := ⌊x⌋
  let r := x - f
  if r < 1/2 then f
  else if 1/2 < r then f + 1
  else if f % 2 = 0 then f else f + 1

/-- `Decimal.quantize(Decimal("0.01"))`: round to a whole number of cents,
half-even. -/
def quantize2 (x : ℚ) : ℚ := (rhe (x * 100) : ℚ) / 100

/-- Python `round(x, 3)`: round to 3 decimal places, half-even. -/
def round3 (x : ℚ) : ℚ := (rhe (x * 1000) : ℚ) / 1000

/-- Numeric odds input, Python `Union[int, float]`.  The string branches of
`OddsConverter` (fractional strings such as `"5/4"` and American strings) are
not needed by any claim and are not modelled. -/
inductive PyNum where
  | int (n : ℤ)
  | float (q : ℚ)
deriving DecidableEq

namespace OddsConverter

/-- `OddsConverter.decimal_odds` (odds.py), int and float branches:
a float is already decimal odds; an int `n ≥ 100` is positive American,
`n ≤ -101` is negative American, and anything in between is passed through
as a (supposedly decimal) value `float(n)`. -/
def decimal_odds : PyNum → ℚ
  | .float q => q
  | .int n =>
      if 100 ≤ n then 1 + (n : ℚ) / 100
      else if n ≤ -101 then 1 + 100 / (|n| : ℚ)
      else (n : ℚ)

/-- `OddsConverter.american_odds` (odds.py), int and float branches:
an int is already American; a float `d > 2.0` maps to `int((d-1)*100)`,
otherwise to `int(-100/(d-1))`. -/
def american_odds : PyNum → ℤ
  | .int n => n
  | .float q =>
      if 2 < q then truncQ ((q - 1) * 100)
      else truncQ (-100 / (q - 1))

/-- `OddsConverter.parlay_odds` (odds.py): product of the legs' decimal odds. -/
def parlay_odds (l : List PyNum) : ℚ :=
  l.foldl (fun acc o => acc * decimal_odds o) 1

end OddsConverter

/-- `PayoutCalculator.decimal_payout` (payouts.py): `stake * odds`. -/
def decimal_payout (stake odds : ℚ) : ℚ := stake * odds

/-- `ProbabilityCalculator.true_odds_ev` (probs.py):
`(profit * prob) - (stake * (1 - prob))`. -/
def true_odds_ev (stake profit prob : ℚ) : ℚ :=
  profit * prob - stake * (1 - prob)

/-- `ProbabilityCalculator.american_implied_win_prob` (probs.py). -/
def american_implied_win_prob (odds : PyNum) : ℚ :=
  let a := OddsConverter.american_odds odds
  if 0 < a then round3 (100 / ((a : ℚ) + 100))
  else round3 ((|a| : ℚ) / ((|a| : ℚ) + 100))

/-- `MarketUtils.break_even_pct` (utils.py): `stake / payout`. -/
def break_even_pct (stake payout : ℚ) : ℚ := stake / payout

/-- `MarketUtils.vig` (utils.py). -/
def vig (f_stake f_payout u_stake u_payout : ℚ) : ℚ :=
  break_even_pct f_stake f_payout + break_even_pct u_stake u_payout - 1

/-- `MarketUtils.bookmaker_margin` (utils.py): sum of implied probabilities
minus one, for a 2-way or 3-way market. -/
def bookmaker_margin (fav dog : PyNum) (draw : Option PyNum) : ℚ :=
  let fav_dec := OddsConverter.decimal_odds fav
  let dog_dec := OddsConverter.decimal_odds dog
  match draw with
  | none => (1 / fav_dec + 1 / dog_dec) - 1
  | some dr => (1 / fav_dec + 1 / dog_dec + 1 / OddsConverter.decimal_odds dr) - 1

/-- `RiskThresholds` (risk.py): risk classification bands as fractions of
bankroll. -/
structure RiskThresholds where
  low : ℚ
  med : ℚ
  high : ℚ
deriving DecidableEq

/-- `RISK_PRESETS["balanced"]` (risk.py). -/
def presetBalanced : RiskThresholds := ⟨5/100, 15/100, 30/100⟩

/-- `RISK_PRESETS["aggressive"]` (risk.py). -/
def presetAggressive : RiskThresholds := ⟨10/100, 25/100, 50/100⟩

/-- Mutable state of `DynamicRiskManager` (risk.py). -/
structure RiskState where
  base : RiskThresholds
  max_risk : ℚ
  peak : ℚ
  drawdown : ℚ
deriving DecidableEq

/-- `DynamicRiskManager.__init__` (risk.py):
`max_risk = min(1.0, max(0.01, float(max_risk_pct)))`, `peak = 0`,
`drawdown = 0.0`. -/
def mkRiskManager (base : RiskThresholds) (max_risk_pct : ℚ) : RiskState :=
  ⟨base, min 1 (max (1/100) max_risk_pct), 0, 0⟩

/-- `DynamicRiskManager.update` (risk.py): raise the peak, recompute the
drawdown fraction (0 if the peak is not positive). -/
def riskUpdate (rs : RiskState) (bank : ℚ) : RiskState :=
  let peak := max rs.peak bank
  ⟨rs.base, rs.max_risk, peak, if 0 < peak then (peak - bank) / peak else 0⟩

/-- `DynamicRiskManager.level` (risk.py): classify a fraction of bankroll,
penalized by the current drawdown. -/
def riskLevel (rs : RiskState) (pct : ℚ) : String :=
  let adj := pct * (1 + rs.drawdown * 2)
  if adj ≤ rs.base.low then "low"
  else if adj ≤ rs.base.med then "medium"
  else if adj ≤ rs.base.high then "high"
  else "insane"

/-- Error message for the `NameError` raised on risk.py line 56: risk.py never
imports `logging`, so the drawdown-protection branch of `cap` crashes when it
tries to log. -/
def loggingNameError : String := "NameError: name logging is not defined"

/-- `DynamicRiskManager.cap` (risk.py).  `cap = bank * max_risk`; if
`drawdown > 0.20` the cap is halved and the code then evaluates
`logging.getLogger(...)` — but risk.py has no `import logging`, so that branch
raises `NameError` before returning.  Only the non-drawdown branch returns
`min(amount, cap)`. -/
def riskCap (rs : RiskState) (amount bank : ℚ) : Except String ℚ :=
  if 1/5 < rs.drawdown then .error loggingNameError
  else .ok (min amount (bank * rs.max_risk))

/-- `Wager` (wagr.py): immutable record of a single bet.  The optional fields
(`odds`, `win_rate`, `bookie`, `timestamp`, `outcome`) take their defaults in
every call the claims exercise and carry no claim-relevant content, so they
are not modelled. -/
structure Wager where
  strategy : String
  amount : ℚ
  why : String
  risk : String
  pct_bank : ℚ
  ev : ℚ
  kelly_f : ℚ
deriving DecidableEq

/-- State of `HistoryBuffer` (wagr.py): a deque of at most `maxlen` wagers
plus the fact that a flush file is configured (the claims all concern a
buffer with a configured file). -/
structure HistoryBuffer where
  buffer : List Wager
  maxlen : ℕ
deriving DecidableEq

/-- Observable outcome of a `HistoryBuffer` flush or append: the new buffer
state, the records appended to the log file (one JSON line each — the JSON
text itself is abstracted to the record), the log lines actually emitted, and
the exception, if any, that propagates to the caller. -/
structure FlushResult where
  hb : HistoryBuffer
  appended : List Wager
  logs : List String
  raised : Option String
deriving DecidableEq

/-- `HistoryBuffer._flush` (wagr.py).  The external I/O outcome is a
parameter: `none` means every write succeeds; `some k` means the attempt
raises after `k` records have been written (`k = 0` when the `open` itself
fails, e.g. `PermissionError`).  wagr.py has no `import logging`, so neither
path emits a log line.  On success all buffered records are appended in order
and `buffer.clear()` runs; the `logging.getLogger(...).debug("History flushed
to disk")` call that follows it then raises `NameError`, which the blanket
`except Exception: pass` swallows — so the flush still counts as successful
but no debug line is emitted.  On failure the handler in `_safe_open`
evaluates `logging.getLogger(...)` and the same `NameError` replaces both the
error log line and the re-raise; `_flush` swallows it, leaving the buffer
untouched, emitting no log line, and propagating nothing to the caller. -/
def HistoryBuffer.flush (hb : HistoryBuffer) (io_outcome : Option ℕ) :
    FlushResult :=
  match io_outcome with
  | none => ⟨⟨[], hb.maxlen⟩, hb.buffer, [], none⟩
  | some k => ⟨hb, hb.buffer.take k, [], none⟩

/-- `HistoryBuffer.append` (wagr.py): deque append (dropping the oldest entry
when the deque is full), then a flush when the buffer has reached `maxlen`. -/
def HistoryBuffer.appendW (hb : HistoryBuffer) (w : Wager)
    (io_outcome : Option ℕ) : FlushResult :=
  let buf :=
    if hb.buffer.length = hb.maxlen ∧ 0 < hb.maxlen
    then hb.buffer.tail ++ [w] else hb.buffer ++ [w]
  let hb1 : HistoryBuffer := ⟨buf, hb.maxlen⟩
  if buf.length = hb.maxlen then hb1.flush io_outcome
  else ⟨hb1, [], [], none⟩

/-- Mutable state of the `BnkRllBrn` engine (brain.py).  The engine-side
history is kept as a plain list of wagers: the claims about the engine never
reach the 10,000-record overflow, whose flush I/O is modelled separately on
`HistoryBuffer`. -/
structure EngineState where
  bank : ℚ
  peak : ℚ
  min_bank : ℚ
  risk : RiskState
  placed : ℕ
  total_ev : ℚ
  fib_streak : ℕ
  history : List Wager
deriving DecidableEq

/-- `BnkRllBrn.__init__` (brain.py) with the default "balanced" profile. -/
def initState (bankroll min_bankroll max_risk_pct : ℚ) : EngineState :=
  ⟨bankroll, bankroll, min_bankroll,
    mkRiskManager presetBalanced max_risk_pct, 0, 0, 0, []⟩

/-- Message of the `ValueError` raised by `BnkRllBrn._check_bank`. -/
def insufficientBank : String := "ValueError: bankroll below minimum"

/-- `BnkRllBrn._check_bank` (brain.py): raise if the bankroll is strictly
below the configured minimum. -/
def check_bank (st : EngineState) : Except String Unit :=
  if st.bank < st.min_bank then .error insufficientBank else .ok ()

/-- `BnkRllBrn._record` (brain.py): append to the history, update the placed
count / cumulative EV / peak (and reset the fib streak on a win) when the
stake is positive, then refresh the risk manager from the current bank.
Strategy methods always call it with `won = False`. -/
def record (st : EngineState) (w : Wager) (won : Bool) : EngineState :=
  let st1 :=
    if 0 < w.amount then
      { st with
          placed := st.placed + 1
          total_ev := st.total_ev + w.amount * w.ev
          peak := max st.peak st.bank
          fib_streak := if won then 0 else st.fib_streak
          history := st.history ++ [w] }
    else { st with history := st.history ++ [w] }
  { st1 with risk := riskUpdate st1.risk st1.bank }

/-- `BnkRllBrn._kelly_core` (brain.py): `(kelly_fraction, expected_value)`.
EV is `true_odds_ev(1, dec - 1, use_prob)` with `use_prob` the optional true
probability falling back to `p`; a non-positive EV short-circuits to a zero
fraction, otherwise the raw Kelly fraction `(b·p − q)/b` is returned. -/
def kelly_core (p : ℚ) (odds : PyNum) (true_p : Option ℚ) : ℚ × ℚ :=
  let dec := OddsConverter.decimal_odds odds
  let profit := dec - 1
  let use_prob := true_p.getD p
  let ev := true_odds_ev 1 profit use_prob
  if ev ≤ 0 then (0, ev)
  else
    let b := dec - 1
    ((b * p - (1 - p)) / b, ev)

/-- Result type of an engine method: Python exceptions do not roll back the
assignments already made, so each method returns the state it reached together
with the `Except` outcome. -/
abbrev StratResult (α : Type) := EngineState × Except String α

/-- `BnkRllBrn.ev_kelly` (brain.py): check the bankroll floor, run the Kelly
core, and either produce a zero-stake "no edge" wager (EV ≤ 1.5%) or weight
the Kelly fraction by `1 + EV^aggression · 8`, clamp the fraction to 1, round
the stake to cents and pass it through the risk cap. -/
def ev_kelly (p : ℚ) (odds : PyNum) (aggression : ℕ) (true_p : Option ℚ)
    (st : EngineState) : StratResult Wager :=
  match check_bank st with
  | .error e => (st, .error e)
  | .ok _ =>
    let ke := kelly_core p odds true_p
    if ke.2 ≤ 3/200 then
      let w : Wager := ⟨"EV-Kelly", 0, "EV < 1.5% — No edge", "low", 0, ke.2, 0⟩
      (record st w false, .ok w)
    else
      let weight := 1 + ke.2 ^ aggression * 8
      let weighted_f := ke.1 * weight
      let pct := min weighted_f 1
      match riskCap st.risk (quantize2 (st.bank * pct)) st.bank with
      | .error e => (st, .error e)
      | .ok amount =>
        let w : Wager :=
          ⟨"EV-Kelly", amount, "EV-weighted", riskLevel st.risk pct, pct, ke.2, weight⟩
        (record st w false, .ok w)

/-- `BnkRllBrn.pure_kelly` (brain.py): the EV ≤ 0 gate and the unweighted
Kelly fraction clamped to 1. -/
def pure_kelly (p : ℚ) (odds : PyNum) (true_p : Option ℚ)
    (st : EngineState) : StratResult Wager :=
  match check_bank st with
  | .error e => (st, .error e)
  | .ok _ =>
    let ke := kelly_core p odds true_p
    if ke.2 ≤ 0 then
      let w : Wager := ⟨"pure_kelly", 0, "EV <= 0 — No edge", "low", 0, ke.2, 0⟩
      (record st w false, .ok w)
    else
      let pct := min ke.1 1
      match riskCap st.risk (quantize2 (st.bank * pct)) st.bank with
      | .error e => (st, .error e)
      | .ok amount =>
        let w : Wager :=
          ⟨"pure_kelly", amount, "Pure Kelly", riskLevel st.risk pct, pct, ke.2, 1⟩
        (record st w false, .ok w)

/-- The Fibonacci multiplier of brain.py's `fib`: `a, b = 1, 1` advanced
`streak` times, returning `b`. -/
def fibPair : ℕ → ℕ × ℕ
  | 0 => (1, 1)
  | n + 1 => let ab := fibPair n; (ab.2, ab.1 + ab.2)

/-- Multiplier used for a given streak value. -/
def fibNum (n : ℕ) : ℕ := (fibPair n).2

/-- `BnkRllBrn.fib` (brain.py).  Note the source has no `_check_bank` call:
the method runs regardless of the bankroll floor.  A win resets the streak; a
streak strictly above 12 forces a reset (flagged in the rationale) before the
stake is computed; an optional probability below the odds-implied probability
skips the bet; the streak advances only on a non-skipped, non-reset loss. -/
def fib (odds : PyNum) (won_last : Bool) (unit : ℚ) (p : Option ℚ)
    (st : EngineState) : StratResult Wager :=
  let s1 := if won_last then 0 else st.fib_streak
  let s2 := if 12 < s1 then 0 else s1
  let stMid := { st with fib_streak := s2 }
  let skip_fib :=
    match p with
    | some pp => decide (pp < american_implied_win_prob odds)
    | none => false
  if skip_fib then
    let w : Wager := ⟨"fib", 0, "No edge — Skip (p < implied)", "SKIP", 0, 0, 0⟩
    (record stMid w false, .ok w)
  else
    let b := fibNum s2
    let raw := stMid.bank * unit * (b : ℚ)
    match riskCap stMid.risk (quantize2 raw) stMid.bank with
    | .error e => (stMid, .error e)
    | .ok amount =>
      let why := "Fib×" ++ toString b ++ " (s=" ++ toString s2 ++ ")"
        ++ (if 12 < s1 then " — FORCING RESET" else "")
      let pct := if 0 < amount then amount / stMid.bank else 0
      let w : Wager := ⟨"fib", amount, why, riskLevel stMid.risk pct, pct, 0, 0⟩
      let st1 := record stMid w false
      let st2 :=
        if won_last = false ∧ ¬(12 < s1) then
          { st1 with fib_streak := st1.fib_streak + 1 }
        else st1
      (st2, .ok w)

/-- `BnkRllBrn.elo_kelly` (brain.py): converts an ELO differential to a win
probability and delegates to `ev_kelly`.  The logistic map
`1 / (10^(-elo_diff/400) + 1)` is an irrational real-valued function; it is
abstracted here as the already-computed probability `p`, which is all the
claims need (the bankroll check happens inside `ev_kelly`, after `p`). -/
def elo_kelly (p : ℚ) (odds : PyNum) (aggression : ℕ) (true_p : Option ℚ)
    (st : EngineState) : StratResult Wager :=
  ev_kelly p odds aggression true_p st

/-- `BnkRllBrn.parlay_bet` (brain.py): fixed base percentage of bankroll
(juice is hard-coded to 0), rounded to cents and capped. -/
def parlay_bet (odds_list : List PyNum) (base_pct : ℚ)
    (st : EngineState) : StratResult Wager :=
  match check_bank st with
  | .error e => (st, .error e)
  | .ok _ =>
    let _parlay_dec := OddsConverter.parlay_odds odds_list
    let juice : ℚ := 0
    let adj_pct := base_pct * (1 - juice)
    match riskCap st.risk (quantize2 (st.bank * adj_pct)) st.bank with
    | .error e => (st, .error e)
    | .ok amount =>
      let pct := amount / st.bank
      let w : Wager :=
        ⟨"parlay", amount, "Parlay (no vig)", riskLevel st.risk pct, pct, 0, 0⟩
      (record st w false, .ok w)

/-- `BnkRllBrn.margin_bet` (brain.py): base percentage divided by the
bookmaker margin plus a floor. -/
def margin_bet (fav_odds dog_odds : PyNum) (base_pct : ℚ)
    (st : EngineState) : StratResult Wager :=
  match check_bank st with
  | .error e => (st, .error e)
  | .ok _ =>
    let margin := bookmaker_margin fav_odds dog_odds none
    let adj_pct := base_pct / max (margin + 1/100) (1/100)
    match riskCap st.risk (quantize2 (st.bank * adj_pct)) st.bank with
    | .error e => (st, .error e)
    | .ok amount =>
      let pct := amount / st.bank
      let w : Wager :=
        ⟨"margin", amount, "Low margin adj", riskLevel st.risk pct, pct, 0, 0⟩
      (record st w false, .ok w)

/-- Odds argument of `_vig_adjusted_bet`: a single-sided value or an explicit
tuple/list of market-side odds (2-way, optionally with draw odds). -/
inductive VigOdds where
  | single (o : PyNum)
  | market (fav dog : PyNum) (draw : Option PyNum)
deriving DecidableEq

/-- Message of the `NameError` raised on brain.py line 257: brain.py calls
`bookmaker_margin(...)` as a bare name, but only imports `MarketUtils`,
`setup_logger` and `GlobalLogWriter` from WagerBrain.utils, so the name is
undefined in the module. -/
def marginNameError : String := "NameError: name bookmaker_margin is not defined"

/-- `BnkRllBrn._vig_adjusted_bet` (brain.py).  The tuple/list branch calls the
unimported bare name `bookmaker_margin` and therefore raises `NameError`
(logged by the method's except clause and re-raised).  The single-sided branch
synthesizes a mirror American price, estimates the two-way vig, and reduces
the base percentage by the juice floored at zero. -/
def vig_adjusted_bet (odds : VigOdds) (base_pct : ℚ) (_commish : Option ℚ)
    (st : EngineState) : StratResult Wager :=
  match check_bank st with
  | .error e => (st, .error e)
  | .ok _ =>
    match odds with
    | .market _ _ _ => (st, .error marginNameError)
    | .single o =>
      let dec_odds := OddsConverter.decimal_odds o
      let f_payout := decimal_payout 1 dec_odds
      let u_american :=
        if dec_odds < 2 then truncQ (100 * (dec_odds - 1))
        else truncQ ((-100) * dec_odds / (dec_odds - 1))
      let u_dec := OddsConverter.decimal_odds (.int u_american)
      let u_payout := decimal_payout 1 u_dec
      let juice := vig 1 f_payout 1 u_payout
      let adj_pct := base_pct * (1 - max juice 0)
      match riskCap st.risk (quantize2 (st.bank * adj_pct)) st.bank with
      | .error e => (st, .error e)
      | .ok amount =>
        let pct := amount / st.bank
        let w : Wager :=
          ⟨"vig", amount, "Vig-adj", riskLevel st.risk pct, pct, 0, 0⟩
        (record st w false, .ok w)

/-- `BnkRllBrn.five_bet_labouchere_bankroll` (brain.py). -/
def five_bet_labouchere_bankroll (target : ℚ) : List ℚ :=
  [1/10, 2/10, 4/10, 2/10, 1/10].map (fun r => target * r)

/-- Loop body of `labouchere_bet`/`reverse_labouchere_bet`: cap each stake of
the sequence against the current bank and record a wager for it; an exception
from the cap keeps the wagers already recorded (Python does not roll back). -/
def stakeLoop (name why : String) (st : EngineState) :
    List ℚ → StratResult (List Wager)
  | [] => (st, .ok [])
  | stake :: rest =>
    match riskCap st.risk stake st.bank with
    | .error e => (st, .error e)
    | .ok amount =>
      let pct_bank := amount / st.bank
      let w : Wager :=
        ⟨name, amount, why, riskLevel st.risk pct_bank, pct_bank, 0, 0⟩
      let st1 := record st w false
      let res := stakeLoop name why st1 rest
      (res.1, res.2.map (fun ws => w :: ws))

/-- `BnkRllBrn.labouchere_bet` (brain.py): the 5-stake Labouchere sequence,
each stake capped (not cent-rounded) and recorded. -/
def labouchere_bet (target : ℚ) (_odds : PyNum)
    (st : EngineState) : StratResult (List Wager) :=
  match check_bank st with
  | .error e => (st, .error e)
  | .ok _ =>
    stakeLoop "labouchere" "Labouchere sequence" st
      (five_bet_labouchere_bankroll target)

/-- `BnkRllBrn.martingale_bet` (brain.py): `base_bet * multiplier^losses`,
capped. -/
def martingale_bet (base_bet : ℚ) (consecutive_losses : ℕ) (multiplier : ℚ)
    (st : EngineState) : StratResult Wager :=
  match check_bank st with
  | .error e => (st, .error e)
  | .ok _ =>
    let bet_amount := base_bet * multiplier ^ consecutive_losses
    match riskCap st.risk bet_amount st.bank with
    | .error e => (st, .error e)
    | .ok amount =>
      let pct := amount / st.bank
      let w : Wager :=
        ⟨"martingale", amount, "Martingale", riskLevel st.risk pct, pct, 0, 0⟩
      (record st w false, .ok w)

/-- `BnkRllBrn.dalembert_bet` (brain.py): base plus the loss/win difference
times a 10% unit, floored at 10% of base, capped. -/
def dalembert_bet (base_bet : ℚ) (wins losses : ℕ)
    (st : EngineState) : StratResult Wager :=
  match check_bank st with
  | .error e => (st, .error e)
  | .ok _ =>
    let unit := base_bet * (1/10)
    let bet_amount := base_bet + (losses : ℚ) * unit - (wins : ℚ) * unit
    let bet_amount := max bet_amount (base_bet * (1/10))
    match riskCap st.risk bet_amount st.bank with
    | .error e => (st, .error e)
    | .ok amount =>
      let pct := amount / st.bank
      let w : Wager :=
        ⟨"dalembert", amount, "DAlembert", riskLevel st.risk pct, pct, 0, 0⟩
      (record st w false, .ok w)

/-- `BnkRllBrn.reverse_labouchere_sequence` (brain.py): the fixed 5-ratio
sequence, or a symmetric sequence built from `0.1 * (i + 1)` ratios. -/
def reverse_labouchere_sequence (target : ℚ) (num_bets : ℕ) : List ℚ :=
  let ratios :=
    if num_bets = 5 then [2/10, 3/10, 5/10, 3/10, 2/10]
    else
      let mid_point := num_bets / 2
      let base := (List.range (mid_point + 1)).map
        (fun i => (1/10 : ℚ) * ((i : ℚ) + 1))
      if num_bets % 2 = 0 then base ++ base.dropLast.reverse
      else base ++ base.reverse
  ratios.map (fun r => target * r)

/-- `BnkRllBrn.reverse_labouchere_bet` (brain.py). -/
def reverse_labouchere_bet (target : ℚ) (num_bets : ℕ)
    (st : EngineState) : StratResult (List Wager) :=
  match check_bank st with
  | .error e => (st, .error e)
  | .ok _ =>
    stakeLoop "reverse_labouchere" "Reverse Labouchere" st
      (reverse_labouchere_sequence target num_bets)

/-- `BnkRllBrn.flat_bet` (brain.py): a fixed currency amount, capped. -/
def flat_bet (fixed_amount : ℚ) (st : EngineState) : StratResult Wager :=
  match check_bank st with
  | .error e => (st, .error e)
  | .ok _ =>
    match riskCap st.risk fixed_amount st.bank with
    | .error e => (st, .error e)
    | .ok amount =>
      let pct := amount / st.bank
      let w : Wager :=
        ⟨"flat", amount, "Flat betting", riskLevel st.risk pct, pct, 0, 0⟩
      (record st w false, .ok w)

/-- `BnkRllBrn.percentage_bet` (brain.py): a fixed percentage of the current
bankroll, capped. -/
def percentage_bet (bet_pct : ℚ) (st : EngineState) : StratResult Wager :=
  match check_bank st with
  | .error e => (st, .error e)
  | .ok _ =>
    let bet_amount := st.bank * bet_pct
    match riskCap st.risk bet_amount st.bank with
    | .error e => (st, .error e)
    | .ok amount =>
      let pct := amount / st.bank
      let w : Wager :=
        ⟨"percentage", amount, "Percentage betting", riskLevel st.risk pct, pct, 0, 0⟩
      (record st w false, .ok w)

/-- `BnkRllBrn.fixed_unit_bet` (brain.py): `unit_size * num_units`, capped. -/
def fixed_unit_bet (unit_size : ℚ) (num_units : ℕ)
    (st : EngineState) : StratResult Wager :=
  match check_bank st with
  | .error e => (st, .error e)
  | .ok _ =>
    let bet_amount := unit_size * (num_units : ℚ)
    match riskCap st.risk bet_amount st.bank with
    | .error e => (st, .error e)
    | .ok amount =>
      let pct := amount / st.bank
      let w : Wager :=
        ⟨"fixed_unit", amount, "Fixed unit", riskLevel st.risk pct, pct, 0, 0⟩
      (record st w false, .ok w)

/-- `BnkRllBrn.update_bank` (brain.py): set the bankroll to the new value
(with no validation) and reset the Fibonacci streak on a win. -/
def update_bank (new : ℚ) (won : Bool) (st : EngineState) : EngineState :=
  { st with bank := new, fib_streak := if won then 0 else st.fib_streak }

/-- One engine operation: a staking call through any of the strategy methods,
or a bankroll settlement.  `eloKelly` carries the already-derived probability
(see `elo_kelly`). -/
inductive Op where
  | evKelly (p : ℚ) (odds : PyNum) (aggression : ℕ) (true_p : Option ℚ)
  | pureKelly (p : ℚ) (odds : PyNum) (true_p : Option ℚ)
  | fibOp (odds : PyNum) (won_last : Bool) (unit : ℚ) (p : Option ℚ)
  | eloKelly (p : ℚ) (odds : PyNum) (aggression : ℕ) (true_p : Option ℚ)
  | parlay (odds_list : List PyNum) (base_pct : ℚ)
  | marginOp (fav dog : PyNum) (base_pct : ℚ)
  | vigOp (odds : VigOdds) (base_pct : ℚ) (commish : Option ℚ)
  | labouchere (target : ℚ) (odds : PyNum)
  | martingale (base_bet : ℚ) (losses : ℕ) (multiplier : ℚ)
  | dalembert (base_bet : ℚ) (wins losses : ℕ)
  | revLabouchere (target : ℚ) (num_bets : ℕ)
  | flat (fixed_amount : ℚ)
  | percentage (bet_pct : ℚ)
  | fixedUnit (unit_size : ℚ) (num_units : ℕ)
  | updateBank (new : ℚ) (won : Bool)
deriving DecidableEq

/-- Apply one operation to the engine state (the state after the call,
whether or not the call raised). -/
def stepOp (st : EngineState) : Op → EngineState
  | .evKelly p o a tp => (ev_kelly p o a tp st).1
  | .pureKelly p o tp => (pure_kelly p o tp st).1
  | .fibOp o w u p => (fib o w u p st).1
  | .eloKelly p o a tp => (elo_kelly p o a tp st).1
  | .parlay l b => (parlay_bet l b st).1
  | .marginOp f d b => (margin_bet f d b st).1
  | .vigOp o b c => (vig_adjusted_bet o b c st).1
  | .labouchere t o => (labouchere_bet t o st).1
  | .martingale b l m => (martingale_bet b l m st).1
  | .dalembert b w l => (dalembert_bet b w l st).1
  | .revLabouchere t n => (reverse_labouchere_bet t n st).1
  | .flat a => (flat_bet a st).1
  | .percentage p => (percentage_bet p st).1
  | .fixedUnit u n => (fixed_unit_bet u n st).1
  | .updateBank q w => update_bank q w st

/-- Run a sequence of engine operations. -/
def runOps (st : EngineState) (ops : List Op) : EngineState :=
  ops.foldl stepOp st

/-- Whether an operation is the explicit bankroll settlement. -/
def Op.isSettle : Op → Bool
  | .updateBank _ _ => true
  | _ => false

/-- Whether an operation, if it is a settlement, carries a non-negative new
balance. -/
def Op.settleNonneg : Op → Bool
  | .updateBank q _ => decide (0 ≤ q)
  | _ => true

/-! Helper lemmas: the shared recording path never touches the bankroll, and
it never touches the streak when called (as every strategy does) with
`won = false`; no strategy method assigns the bankroll. -/

lemma record_bank (st : EngineState) (w : Wager) (won : Bool) :
    (record st w won).bank = st.bank := by
  simp only [record]
  split <;> rfl

lemma record_streak (st : EngineState) (w : Wager) :
    (record st w false).fib_streak = st.fib_streak := by
  simp only [record]
  split <;> rfl

lemma stakeLoop_bank (name why : String) :
    ∀ (l : List ℚ) (st : EngineState),
      ((stakeLoop name why st l).1).bank = st.bank := by
  intro l
  induction l with
  | nil => intro st; rfl
  | cons s rest ih =>
    intro st
    simp only [stakeLoop]
    split
    · rfl
    · rw [ih, record_bank]

lemma stakeLoop_streak (name why : String) :
    ∀ (l : List ℚ) (st : EngineState),
      ((stakeLoop name why st l).1).fib_streak = st.fib_streak := by
  intro l
  induction l with
  | nil => intro st; rfl
  | cons s rest ih =>
    intro st
    simp only [stakeLoop]
    split
    · rfl
    · rw [ih, record_streak]

lemma ev_kelly_bank (p : ℚ) (o : PyNum) (a : ℕ) (tp : Option ℚ)
    (st : EngineState) : ((ev_kelly p o a tp st).1).bank = st.bank := by
  simp only [ev_kelly]
  split
  · rfl
  · split
    · exact record_bank ..
    · split
      · rfl
      · exact record_bank ..

lemma ev_kelly_streak (p : ℚ) (o : PyNum) (a : ℕ) (tp : Option ℚ)
    (st : EngineState) : ((ev_kelly p o a tp st).1).fib_streak = st.fib_streak := by
  simp only [ev_kelly]
  split
  · rfl
  · split
    · exact record_streak ..
    · split
      · rfl
      · exact record_streak ..

lemma pure_kelly_bank (p : ℚ) (o : PyNum) (tp : Option ℚ)
    (st : EngineState) : ((pure_kelly p o tp st).1).bank = st.bank := by
  simp only [pure_kelly]
  split
  · rfl
  · split
    · exact record_bank ..
    · split
      · rfl
      · exact record_bank ..

lemma pure_kelly_streak (p : ℚ) (o : PyNum) (tp : Option ℚ)
    (st : EngineState) : ((pure_kelly p o tp st).1).fib_streak = st.fib_streak := by
  simp only [pure_kelly]
  split
  · rfl
  · split
    · exact record_streak ..
    · split
      · rfl
      · exact record_streak ..

lemma ite_update_bank (c : Prop) [Decidable c] (st1 : EngineState) (x : ℕ) :
    (if c then { st1 with fib_streak := x } else st1).bank = st1.bank := by
  split <;> rfl

lemma ite_update_streak (c : Prop) [Decidable c] (st1 : EngineState) (x : ℕ) :
    (if c then { st1 with fib_streak := x } else st1).fib_streak =
      if c then x else st1.fib_streak := by
  split <;> rfl

lemma fib_bank (o : PyNum) (wl : Bool) (u : ℚ) (p : Option ℚ)
    (st : EngineState) : ((fib o wl u p st).1).bank = st.bank := by
  unfold fib
  dsimp only
  split
  · exact record_bank ..
  · split
    · rfl
    · dsimp only
      rw [ite_update_bank, record_bank]

lemma fib_streak_le (o : PyNum) (wl : Bool) (u : ℚ) (p : Option ℚ)
    (st : EngineState) (h : st.fib_streak ≤ 13) :
    ((fib o wl u p st).1).fib_streak ≤ 13 := by
  unfold fib
  dsimp only
  split
  · rw [record_streak]
    dsimp only
    cases wl
    · simp only [Bool.false_eq_true, if_false]
      by_cases hf : 12 < st.fib_streak <;> simp [hf]
      omega
    · simp
  · split
    · dsimp only
      cases wl
      · simp only [Bool.false_eq_true, if_false]
        by_cases hf : 12 < st.fib_streak <;> simp [hf]
        omega
      · simp
    · dsimp only
      rw [ite_update_streak, record_streak]
      dsimp only
      cases wl
      · simp only [Bool.false_eq_true, if_false]
        by_cases hf : 12 < st.fib_streak
        · simp [hf]
        · simp [hf]
          omega
      · simp

lemma parlay_bank (l : List PyNum) (b : ℚ) (st : EngineState) :
    ((parlay_bet l b st).1).bank = st.bank := by
  simp only [parlay_bet]
  split
  · rfl
  · split
    · rfl
    · exact record_bank ..

lemma parlay_streak (l : List PyNum) (b : ℚ) (st : EngineState) :
    ((parlay_bet l b st).1).fib_streak = st.fib_streak := by
  simp only [parlay_bet]
  split
  · rfl
  · split
    · rfl
    · exact record_streak ..

lemma margin_bank (f d : PyNum) (b : ℚ) (st : EngineState) :
    ((margin_bet f d b st).1).bank = st.bank := by
  simp only [margin_bet]
  split
  · rfl
  · split
    · rfl
    · exact record_bank ..

lemma margin_streak (f d : PyNum) (b : ℚ) (st : EngineState) :
    ((margin_bet f d b st).1).fib_streak = st.fib_streak := by
  simp only [margin_bet]
  split
  · rfl
  · split
    · rfl
    · exact record_streak ..

lemma vig_bank (o : VigOdds) (b : ℚ) (c : Option ℚ) (st : EngineState) :
    ((vig_adjusted_bet o b c st).1).bank = st.bank := by
  simp only [vig_adjusted_bet]
  split
  · rfl
  · split
    · rfl
    · split
      · rfl
      · exact record_bank ..

lemma vig_streak (o : VigOdds) (b : ℚ) (c : Option ℚ) (st : EngineState) :
    ((vig_adjusted_bet o b c st).1).fib_streak = st.fib_streak := by
  simp only [vig_adjusted_bet]
  split
  · rfl
  · split
    · rfl
    · split
      · rfl
      · exact record_streak ..

lemma labouchere_bank (t : ℚ) (o : PyNum) (st : EngineState) :
    ((labouchere_bet t o st).1).bank = st.bank := by
  simp only [labouchere_bet]
  split
  · rfl
  · exact stakeLoop_bank ..

lemma labouchere_streak (t : ℚ) (o : PyNum) (st : EngineState) :
    ((labouchere_bet t o st).1).fib_streak = st.fib_streak := by
  simp only [labouchere_bet]
  split
  · rfl
  · exact stakeLoop_streak ..

lemma martingale_bank (b : ℚ) (l : ℕ) (m : ℚ) (st : EngineState) :
    ((martingale_bet b l m st).1).bank = st.bank := by
  simp only [martingale_bet]
  split
  · rfl
  · split
    · rfl
    · exact record_bank ..

lemma martingale_streak (b : ℚ) (l : ℕ) (m : ℚ) (st : EngineState) :
    ((martingale_bet b l m st).1).fib_streak = st.fib_streak := by
  simp only [martingale_bet]
  split
  · rfl
  · split
    · rfl
    · exact record_streak ..

lemma dalembert_bank (b : ℚ) (w l : ℕ) (st : EngineState) :
    ((dalembert_bet b w l st).1).bank = st.bank := by
  simp only [dalembert_bet]
  split
  · rfl
  · split
    · rfl
    · exact record_bank ..

lemma dalembert_streak (b : ℚ) (w l : ℕ) (st : EngineState) :
    ((dalembert_bet b w l st).1).fib_streak = st.fib_streak := by
  simp only [dalembert_bet]
  split
  · rfl
  · split
    · rfl
    · exact record_streak ..

lemma revlab_bank (t : ℚ) (n : ℕ) (st : EngineState) :
    ((reverse_labouchere_bet t n st).1).bank = st.bank := by
  simp only [reverse_labouchere_bet]
  split
  · rfl
  · exact stakeLoop_bank ..

lemma revlab_streak (t : ℚ) (n : ℕ) (st : EngineState) :
    ((reverse_labouchere_bet t n st).1).fib_streak = st.fib_streak := by
  simp only [reverse_labouchere_bet]
  split
  · rfl
  · exact stakeLoop_streak ..

lemma flat_bank (a : ℚ) (st : EngineState) :
    ((flat_bet a st).1).bank = st.bank := by
  simp only [flat_bet]
  split
  · rfl
  · split
    · rfl
    · exact record_bank ..

lemma flat_streak (a : ℚ) (st : EngineState) :
    ((flat_bet a st).1).fib_streak = st.fib_streak := by
  simp only [flat_bet]
  split
  · rfl
  · split
    · rfl
    · exact record_streak ..

lemma percentage_bank (p : ℚ) (st : EngineState) :
    ((percentage_bet p st).1).bank = st.bank := by
  simp only [percentage_bet]
  split
  · rfl
  · split
    · rfl
    · exact record_bank ..

lemma percentage_streak (p : ℚ) (st : EngineState) :
    ((percentage_bet p st).1).fib_streak = st.fib_streak := by
  simp only [percentage_bet]
  split
  · rfl
  · split
    · rfl
    · exact record_streak ..

lemma fixed_unit_bank (u : ℚ) (n : ℕ) (st : EngineState) :
    ((fixed_unit_bet u n st).1).bank = st.bank := by
  simp only [fixed_unit_bet]
  split
  · rfl
  · split
    · rfl
    · exact record_bank ..

lemma fixed_unit_streak (u : ℚ) (n : ℕ) (st : EngineState) :
    ((fixed_unit_bet u n st).1).fib_streak = st.fib_streak := by
  simp only [fixed_unit_bet]
  split
  · rfl
  · split
    · rfl
    · exact record_streak ..

/-- A non-settlement operation never changes the bankroll. -/
lemma stepOp_bank (st : EngineState) (op : Op) (h : op.isSettle = false) :
    (stepOp st op).bank = st.bank := by
  cases op with
  | evKelly p o a tp => exact ev_kelly_bank ..
  | pureKelly p o tp => exact pure_kelly_bank ..
  | fibOp o w u p => exact fib_bank ..
  | eloKelly p o a tp => exact ev_kelly_bank ..
  | parlay l b => exact parlay_bank ..
  | marginOp f d b => exact margin_bank ..
  | vigOp o b c => exact vig_bank ..
  | labouchere t o => exact labouchere_bank ..
  | martingale b l m => exact martingale_bank ..
  | dalembert b w l => exact dalembert_bank ..
  | revLabouchere t n => exact revlab_bank ..
  | flat a => exact flat_bank ..
  | percentage p => exact percentage_bank ..
  | fixedUnit u n => exact fixed_unit_bank ..
  | updateBank q w => simp [Op.isSettle] at h

/-- Every operation keeps the bankroll non-negative provided settlements carry
non-negative balances. -/
lemma stepOp_bank_nonneg (st : EngineState) (op : Op)
    (hop : op.settleNonneg = true) (h : 0 ≤ st.bank) :
    0 ≤ (stepOp st op).bank := by
  cases hset : op.isSettle with
  | false => rw [stepOp_bank st op hset]; exact h
  | true =>
    cases op with
    | updateBank q w =>
      simp only [Op.settleNonneg, decide_eq_true_eq] at hop
      simpa [stepOp, update_bank] using hop
    | _ => simp [Op.isSettle] at hset

/-- Every operation preserves the streak bound. -/
lemma stepOp_streak (st : EngineState) (op : Op) (h : st.fib_streak ≤ 13) :
    (stepOp st op).fib_streak ≤ 13 := by
  cases op with
  | evKelly p o a tp => rw [stepOp, ev_kelly_streak]; exact h
  | pureKelly p o tp => rw [stepOp, pure_kelly_streak]; exact h
  | fibOp o w u p => exact fib_streak_le o w u p st h
  | eloKelly p o a tp => rw [stepOp, elo_kelly, ev_kelly_streak]; exact h
  | parlay l b => rw [stepOp, parlay_streak]; exact h
  | marginOp f d b => rw [stepOp, margin_streak]; exact h
  | vigOp o b c => rw [stepOp, vig_streak]; exact h
  | labouchere t o => rw [stepOp, labouchere_streak]; exact h
  | martingale b l m => rw [stepOp, martingale_streak]; exact h
  | dalembert b w l => rw [stepOp, dalembert_streak]; exact h
  | revLabouchere t n => rw [stepOp, revlab_streak]; exact h
  | flat a => rw [stepOp, flat_streak]; exact h
  | percentage p => rw [stepOp, percentage_streak]; exact h
  | fixedUnit u n => rw [stepOp, fixed_unit_streak]; exact h
  | updateBank q w =>
    simp only [stepOp, update_bank]
    split <;> omega

lemma runOps_streak_le (ops : List Op) :
    ∀ st : EngineState, st.fib_streak ≤ 13 → (runOps st ops).fib_streak ≤ 13 := by
  induction ops with
  | nil => intro st h; exact h
  | cons op rest ih =>
    intro st h
    exact ih (stepOp st op) (stepOp_streak st op h)

lemma runOps_bank_nonneg (ops : List Op) :
    ∀ st : EngineState, (∀ op ∈ ops, op.settleNonneg = true) → 0 ≤ st.bank →
      0 ≤ (runOps st ops).bank := by
  induction ops with
  | nil => intro st _ h; exact h
  | cons op rest ih =>
    intro st hall h
    exact ih (stepOp st op) (fun x hx => hall x (List.mem_cons_of_mem _ hx))
      (stepOp_bank_nonneg st op (hall op (List.mem_cons_self ..)) h)

lemma runOps_bank_const (ops : List Op) :
    ∀ st : EngineState, (∀ op ∈ ops, op.isSettle = false) →
      (runOps st ops).bank = st.bank := by
  induction ops with
  | nil => intro st _; rfl
  | cons op rest ih =>
    intro st hall
    rw [show runOps st (op :: rest) = runOps (stepOp st op) rest from rfl,
      ih (stepOp st op) (fun x hx => hall x (List.mem_cons_of_mem _ hx)),
      stepOp_bank st op (hall op (List.mem_cons_self ..))]

lemma record_risk (st : EngineState) (w : Wager) (won : Bool) :
    (record st w won).risk = riskUpdate st.risk st.bank := by
  simp only [record]
  split <;> rfl

lemma ite_update_risk (c : Prop) [Decidable c] (st1 : EngineState) (x : ℕ) :
    (if c then { st1 with fib_streak := x } else st1).risk = st1.risk := by
  split <;> rfl

lemma fib_step_char (o : PyNum) (u : ℚ) (st : EngineState) (B : ℚ)
    (hb : st.bank = B) (hBpos : 0 < B) (hdd : st.risk.drawdown = 0)
    (hpk : st.risk.peak ≤ B) (hs : st.fib_streak ≤ 12) :
    ((fib o false u none st).1).bank = B ∧
    ((fib o false u none st).1).risk = ⟨st.risk.base, st.risk.max_risk, B, 0⟩ ∧
    ((fib o false u none st).1).fib_streak = st.fib_streak + 1 ∧
    ((fib o false u none st).2).isOk = true := by
  have hns : ¬ 12 < st.fib_streak := by omega
  have hcapdd : ¬ (1/5 : ℚ) < st.risk.drawdown := by rw [hdd]; norm_num
  have hru : riskUpdate st.risk B = ⟨st.risk.base, st.risk.max_risk, B, 0⟩ := by
    simp only [riskUpdate, max_eq_right hpk, if_pos hBpos, sub_self, zero_div]
  simp only [fib, Bool.false_eq_true, if_false, hns, riskCap, hcapdd, hb]
  refine ⟨?_, ?_, ?_, rfl⟩
  · rw [ite_update_bank, record_bank]
  · rw [ite_update_risk, record_risk]
    exact hru
  · rw [ite_update_streak, record_streak]
    simp


/-- The losing fib call of the 13/14-call scenario. -/
def fibLossCall : Op := Op.fibOp (.int (-110)) false (1/100) none

/-- The scenario engine: bankroll 10,000, minimum 100, default 35% max risk. -/
def st10k : EngineState := initState 10000 100 (35/100)

lemma runOps_snoc (st : EngineState) (n : ℕ) (c : Op) :
    runOps st (List.replicate (n + 1) c) = stepOp (runOps st (List.replicate n c)) c := by
  rw [runOps, List.replicate_succ', List.foldl_append]
  rfl

lemma fib_run_char : ∀ n : ℕ, n ≤ 13 →
    (runOps st10k (List.replicate n fibLossCall)).bank = 10000 ∧
    (runOps st10k (List.replicate n fibLossCall)).risk =
      (if n = 0 then mkRiskManager presetBalanced (35/100)
       else ⟨presetBalanced, 7/20, 10000, 0⟩) ∧
    (runOps st10k (List.replicate n fibLossCall)).fib_streak = n := by
  intro n
  induction n with
  | zero => intro _; exact ⟨rfl, by simp [st10k, initState, runOps], rfl⟩
  | succ k ih =>
    intro hk
    obtain ⟨hb, hr, hs⟩ := ih (by omega)
    have hdd : (runOps st10k (List.replicate k fibLossCall)).risk.drawdown = 0 := by
      rw [hr]; split <;> rfl
    have hpk : (runOps st10k (List.replicate k fibLossCall)).risk.peak ≤ 10000 := by
      rw [hr]; split
      · norm_num [mkRiskManager]
      · norm_num
    have hbase : (runOps st10k (List.replicate k fibLossCall)).risk.base = presetBalanced := by
      rw [hr]; split <;> rfl
    have hmax : (runOps st10k (List.replicate k fibLossCall)).risk.max_risk = 7/20 := by
      rw [hr]; split
      · norm_num [mkRiskManager]
      · rfl
    have hstep := fib_step_char (.int (-110)) (1/100)
      (runOps st10k (List.replicate k fibLossCall)) 10000 hb (by norm_num) hdd hpk
      (by omega)
    rw [runOps_snoc]
    refine ⟨hstep.1, ?_, by rw [show stepOp (runOps st10k (List.replicate k fibLossCall)) fibLossCall = (fib (.int (-110)) false (1/100) none (runOps st10k (List.replicate k fibLossCall))).1 from rfl, hstep.2.2.1, hs]⟩
    rw [show stepOp (runOps st10k (List.replicate k fibLossCall)) fibLossCall = (fib (.int (-110)) false (1/100) none (runOps st10k (List.replicate k fibLossCall))).1 from rfl, hstep.2.1, hbase, hmax]
    simp

lemma fib_forced_char (st : EngineState) (hb : st.bank = 10000)
    (hr : st.risk = ⟨presetBalanced, 7/20, 10000, 0⟩) (hs : st.fib_streak = 13) :
    (fib (.int (-110)) false (1/100) none st).2 =
      .ok ⟨"fib", 100, "Fib×1 (s=0) — FORCING RESET", "low", 1/100, 0, 0⟩ ∧
    ((fib (.int (-110)) false (1/100) none st).1).fib_streak = 0 := by
  simp only [fib, Bool.false_eq_true, if_false, hs, hb, hr]
  norm_num [riskCap, quantize2, rhe, riskLevel, presetBalanced, fibNum, fibPair,
    record_streak, ite_update_streak]
  rfl


lemma kelly_core_snd (p : ℚ) (odds : PyNum) (tp : Option ℚ) :
    (kelly_core p odds tp).2 =
      true_odds_ev 1 (OddsConverter.decimal_odds odds - 1) (tp.getD p) := by
  simp only [kelly_core]
  split <;> rfl

lemma kelly_core_fst_of_pos (p : ℚ) (odds : PyNum) (tp : Option ℚ)
    (h : 0 < true_odds_ev 1 (OddsConverter.decimal_odds odds - 1) (tp.getD p)) :
    (kelly_core p odds tp).1 =
      ((OddsConverter.decimal_odds odds - 1) * p - (1 - p)) /
        (OddsConverter.decimal_odds odds - 1) := by
  simp only [kelly_core]
  rw [if_neg (by exact not_le.mpr h)]

/-- C2: the risk manager cap at a recorded drawdown above 20% does not return
`min(amount, halved ceiling)`: risk.py line 56 evaluates `logging.getLogger`
without an `import logging`, so the call raises `NameError` instead of
returning (and a fortiori sometimes raises, and returns nothing). -/
theorem c2_cap_drawdown_raises :
    (riskUpdate (riskUpdate (mkRiskManager presetBalanced (35/100)) 1000) 750).drawdown
      = 1/4 ∧
    riskCap (riskUpdate (riskUpdate (mkRiskManager presetBalanced (35/100)) 1000) 750)
        100 1000 = .error loggingNameError := by
  have h : (riskUpdate (riskUpdate (mkRiskManager presetBalanced (35/100)) 1000) 750).drawdown
      = 1/4 := by
    norm_num [riskUpdate, mkRiskManager]
  refine ⟨h, ?_⟩
  rw [riskCap, if_pos (by rw [h]; norm_num)]

/-- C7: once a drawdown above 20% has been observed, `cap` raises (NameError
from the unimported `logging`) instead of returning a value at most half of
the zero-drawdown cap. -/
theorem c7_cap_after_drawdown_raises :
    riskCap (riskUpdate (mkRiskManager presetBalanced (35/100)) 2000) 500 2000
      = .ok 500 ∧
    (riskUpdate (riskUpdate (mkRiskManager presetBalanced (35/100)) 2000) 1500).drawdown
      = 1/4 ∧
    riskCap (riskUpdate (riskUpdate (mkRiskManager presetBalanced (35/100)) 2000) 1500)
        500 2000 = .error loggingNameError := by
  have h0 : (riskUpdate (mkRiskManager presetBalanced (35/100)) 2000).drawdown = 0 := by
    norm_num [riskUpdate, mkRiskManager]
  have h1 : (riskUpdate (riskUpdate (mkRiskManager presetBalanced (35/100)) 2000) 1500).drawdown
      = 1/4 := by
    norm_num [riskUpdate, mkRiskManager]
  refine ⟨?_, h1, ?_⟩
  · rw [riskCap, if_neg (by rw [h0]; norm_num)]
    have hmr : (riskUpdate (mkRiskManager presetBalanced (35/100)) 2000).max_risk
        = 7/20 := by
      norm_num [riskUpdate, mkRiskManager]
    rw [hmr]
    norm_num
  · rw [riskCap, if_pos (by rw [h1]; norm_num)]

/-- C10: the stored max-risk fraction is the silent clamp
`min(1.0, max(0.01, max_risk_pct))`, so it always lies in [0.01, 1], and it is
never changed afterwards by drawdown updates (every later cap ceiling is
computed from it). -/
theorem c10_max_risk_clamped (base : RiskThresholds) (x : ℚ) :
    (mkRiskManager base x).max_risk = min 1 (max (1/100) x) ∧
    1/100 ≤ (mkRiskManager base x).max_risk ∧
    (mkRiskManager base x).max_risk ≤ 1 ∧
    ∀ bank : ℚ, (riskUpdate (mkRiskManager base x) bank).max_risk
      = (mkRiskManager base x).max_risk :=
  ⟨rfl, le_min (by norm_num) (le_max_left _ _), min_le_left _ _, fun _ => rfl⟩

/-- C5: on a failed flush the buffer is kept intact and nothing propagates to
the caller, but the failure is NOT logged: the error handler in
`HistoryBuffer._safe_open` itself crashes (wagr.py never imports `logging`),
and `_flush` swallows the resulting NameError.  On a successful flush every
buffered record is appended, one line each, and the buffer is cleared — but
the success debug line also fails to be emitted, for the same reason (its
NameError fires after `buffer.clear()` and is likewise swallowed). -/
theorem c5_flush_failure_not_logged :
    HistoryBuffer.flush ⟨[⟨"flat", 50, "stake", "low", 1/200, 0, 0⟩], 10000⟩ (some 0)
      = ⟨⟨[⟨"flat", 50, "stake", "low", 1/200, 0, 0⟩], 10000⟩, [], [], none⟩ ∧
    HistoryBuffer.flush ⟨[⟨"flat", 50, "stake", "low", 1/200, 0, 0⟩], 10000⟩ none
      = ⟨⟨[], 10000⟩, [⟨"flat", 50, "stake", "low", 1/200, 0, 0⟩], [], none⟩ :=
  ⟨rfl, rfl⟩

/-- C9: the explicit-tuple branch of the vig-adjusted strategy never completes:
brain.py line 257 calls `bookmaker_margin` as a bare, unimported name, so the
call raises `NameError` (re-raised by the method) instead of returning a
vig-reduced Wager. -/
theorem c9_vig_market_raises :
    vig_adjusted_bet (.market (.int (-110)) (.int (-110)) none) (1/50) none st10k
      = (st10k, .error marginNameError) := by
  have hcb : check_bank st10k = .ok () := by
    rw [check_bank, if_neg]
    norm_num [st10k, initState]
  simp only [vig_adjusted_bet, hcb]


/-- C1 counterexample: with bankroll 50 strictly below the configured minimum
100, the `fib` staking operation does not fail with an insufficient-bankroll
condition: it has no `_check_bank` call, completes normally, and mutates the
streak counter from 0 to 1. -/
theorem c1_counterexample :
    (initState 50 100 (35/100)).bank < (initState 50 100 (35/100)).min_bank ∧
    ((fib (.int (-110)) false (1/100) none (initState 50 100 (35/100))).2).isOk = true ∧
    ((fib (.int (-110)) false (1/100) none (initState 50 100 (35/100))).1).fib_streak
      = 1 := by
  have h := fib_step_char (.int (-110)) (1/100) (initState 50 100 (35/100)) 50
    rfl (by norm_num) rfl (by norm_num [initState, mkRiskManager])
    (by norm_num [initState])
  refine ⟨by norm_num [initState], h.2.2.2, by simpa using h.2.2.1⟩

/-- C1 amended: every staking operation except `fib` checks the bankroll floor
first and aborts with the insufficient-bankroll `ValueError`, leaving the
engine state untouched; `fib` performs no such check and completes normally
(whenever its risk-cap call itself does not fail). -/
theorem c1_floor_amended (st : EngineState)
    (p : ℚ) (odds : PyNum) (aggression : ℕ) (true_p : Option ℚ)
    (odds_list : List PyNum) (base_pct : ℚ) (fav dog : PyNum) (vo : VigOdds)
    (commish : Option ℚ) (target : ℚ) (base_bet mult : ℚ)
    (wins losses num_bets num_units : ℕ) (amt unit_size bet_pct unit : ℚ)
    (won_last : Bool) (pgate : Option ℚ)
    (hbank : st.bank < st.min_bank) :
    ev_kelly p odds aggression true_p st = (st, .error insufficientBank) ∧
    pure_kelly p odds true_p st = (st, .error insufficientBank) ∧
    elo_kelly p odds aggression true_p st = (st, .error insufficientBank) ∧
    parlay_bet odds_list base_pct st = (st, .error insufficientBank) ∧
    margin_bet fav dog base_pct st = (st, .error insufficientBank) ∧
    vig_adjusted_bet vo base_pct commish st = (st, .error insufficientBank) ∧
    labouchere_bet target odds st = (st, .error insufficientBank) ∧
    martingale_bet base_bet losses mult st = (st, .error insufficientBank) ∧
    dalembert_bet base_bet wins losses st = (st, .error insufficientBank) ∧
    reverse_labouchere_bet target num_bets st = (st, .error insufficientBank) ∧
    flat_bet amt st = (st, .error insufficientBank) ∧
    percentage_bet bet_pct st = (st, .error insufficientBank) ∧
    fixed_unit_bet unit_size num_units st = (st, .error insufficientBank) ∧
    (st.risk.drawdown ≤ 1/5 →
      ((fib odds won_last unit pgate st).2).isOk = true) := by
  have hcb : check_bank st = .error insufficientBank := by
    rw [check_bank, if_pos hbank]
  refine ⟨?_, ?_, ?_, ?_, ?_, ?_, ?_, ?_, ?_, ?_, ?_, ?_, ?_, ?_⟩
  · simp only [ev_kelly, hcb]
  · simp only [pure_kelly, hcb]
  · simp only [elo_kelly, ev_kelly, hcb]
  · simp only [parlay_bet, hcb]
  · simp only [margin_bet, hcb]
  · simp only [vig_adjusted_bet, hcb]
  · simp only [labouchere_bet, hcb]
  · simp only [martingale_bet, hcb]
  · simp only [dalembert_bet, hcb]
  · simp only [reverse_labouchere_bet, hcb]
  · simp only [flat_bet, hcb]
  · simp only [percentage_bet, hcb]
  · simp only [fixed_unit_bet, hcb]
  · intro hdd
    have hcap : ∀ a b : ℚ, riskCap st.risk a b = .ok (min a (b * st.risk.max_risk)) := by
      intro a b
      rw [riskCap, if_neg (not_lt.mpr hdd)]
    simp only [fib]
    split
    · rfl
    · simp only [hcap]
      rfl

/-- C1 witness: concrete engine with bankroll 50 below the minimum 100. -/
theorem c1_floor_witness :
    (initState 50 100 (35/100)).bank < (initState 50 100 (35/100)).min_bank ∧
    flat_bet 25 (initState 50 100 (35/100))
      = (initState 50 100 (35/100), .error insufficientBank) ∧
    percentage_bet (1/50) (initState 50 100 (35/100))
      = (initState 50 100 (35/100), .error insufficientBank) := by
  have hlt : (initState 50 100 (35/100)).bank < (initState 50 100 (35/100)).min_bank := by
    norm_num [initState]
  have h := c1_floor_amended (initState 50 100 (35/100))
    (1/2) (.int (-110)) 2 none [] (1/50) (.int (-110)) (.int 120)
    (.market (.int (-110)) (.int (-110)) none) none 100 10 2 0 0 5 1 25 10 (1/50) (1/100)
    false none hlt
  exact ⟨hlt, h.2.2.2.2.2.2.2.2.2.2.1, h.2.2.2.2.2.2.2.2.2.2.2.1⟩

/-- C3 counterexample: 13 consecutive losing `fib` calls leave the streak
counter at 13, strictly greater than 12, after the 13th call completes — the
forced reset has not yet fired. -/
theorem c3_counterexample :
    (runOps st10k (List.replicate 13 fibLossCall)).fib_streak = 13 ∧
    ¬ (runOps st10k (List.replicate 13 fibLossCall)).fib_streak ≤ 12 := by
  have h := (fib_run_char 13 (by norm_num)).2.2
  exact ⟨h, by rw [h]; norm_num⟩

/-- C3 amended: the engine streak never exceeds 13 after a staking call
completes (a streak of 13 at entry — i.e. exceeding 12 — forces the reset
before that round's stake); in the scenario it is the 14th consecutive losing
`fib` call, not the 13th, that signals the forced reset, staking at streak 0
(stake 100 from bankroll 10,000 at unit 1%) and leaving the streak at 0. -/
theorem c3_streak_amended :
    (∀ (bankroll minb mrp : ℚ) (ops : List Op),
      (runOps (initState bankroll minb mrp) ops).fib_streak ≤ 13) ∧
    (fib (.int (-110)) false (1/100) none
        (runOps st10k (List.replicate 13 fibLossCall))).2
      = .ok ⟨"fib", 100, "Fib×1 (s=0) — FORCING RESET", "low", 1/100, 0, 0⟩ ∧
    ((fib (.int (-110)) false (1/100) none
        (runOps st10k (List.replicate 13 fibLossCall))).1).fib_streak = 0 := by
  obtain ⟨hb, hr, hs⟩ := fib_run_char 13 (by norm_num)
  have hfc := fib_forced_char _ hb (by rw [hr]; norm_num) hs
  exact ⟨fun bankroll minb mrp ops =>
    runOps_streak_le ops _ (by simp [initState]), hfc.1, hfc.2⟩

/-- C8 counterexample: settling with a negative balance drives the engine
balance negative — `update_bank` performs no validation, so the balance does
not remain non-negative over every operation sequence. -/
theorem c8_counterexample :
    (runOps (initState 1000 100 (35/100)) [Op.updateBank (-50) false]).bank = -50 ∧
    ¬ (0 : ℚ) ≤ (runOps (initState 1000 100 (35/100)) [Op.updateBank (-50) false]).bank := by
  have h : (runOps (initState 1000 100 (35/100)) [Op.updateBank (-50) false]).bank
      = -50 := rfl
  exact ⟨h, by rw [h]; norm_num⟩

/-- C8 amended: settlement (`update_bank`) is the only operation that changes
the balance, and it sets the balance to exactly the supplied value with no
validation; consequently the balance stays non-negative provided the starting
bankroll and every settlement value are non-negative. -/
theorem c8_settlement_amended (st : EngineState) (ops : List Op)
    (h0 : 0 ≤ st.bank) (hset : ∀ op ∈ ops, op.settleNonneg = true) :
    0 ≤ (runOps st ops).bank ∧
    ((∀ op ∈ ops, op.isSettle = false) → (runOps st ops).bank = st.bank) :=
  ⟨runOps_bank_nonneg ops st hset h0, fun hns => runOps_bank_const ops st hns⟩

/-- C8 witness: a staking call followed by a non-negative settlement keeps the
balance non-negative. -/
theorem c8_settlement_witness :
    0 ≤ (runOps (initState 1000 100 (35/100))
        [Op.flat 50, Op.updateBank 900 true]).bank ∧
    ((∀ op ∈ ([Op.flat 50, Op.updateBank 900 true] : List Op), op.isSettle = false) →
      (runOps (initState 1000 100 (35/100)) [Op.flat 50, Op.updateBank 900 true]).bank
        = (initState 1000 100 (35/100)).bank) :=
  c8_settlement_amended (initState 1000 100 (35/100))
    [Op.flat 50, Op.updateBank 900 true]
    (by norm_num [initState])
    (by intro op hop; fin_cases hop <;> norm_num [Op.settleNonneg])


/-- C4: `ev_kelly` computes EV as `true_odds_ev` on the decimal-odds profit
(with the optional true probability replacing `p` in the EV only); at
EV ≤ 1.5% it records a zero-stake "no edge" wager; otherwise the stake is the
raw Kelly fraction `(b·p − q)/b` times the weight `1 + EV^aggression · 8`,
clamped to at most 100% of bankroll, multiplied by the bankroll (rounded to
cents) and passed through the risk cap — hence never more than
`bank × max_risk` (3,500 for bankroll 10,000 at the default 35%). -/
theorem c4_ev_kelly (st : EngineState) (p : ℚ) (odds : PyNum) (aggression : ℕ)
    (true_p : Option ℚ)
    (hp0 : 0 < p) (hp1 : p < 1)
    (_hodds : 1 < OddsConverter.decimal_odds odds)
    (hbank : st.min_bank ≤ st.bank)
    (hdd : st.risk.drawdown ≤ 1/5) :
    (true_odds_ev 1 (OddsConverter.decimal_odds odds - 1) (true_p.getD p) ≤ 3/200 →
      ev_kelly p odds aggression true_p st =
        (record st ⟨"EV-Kelly", 0, "EV < 1.5% — No edge", "low", 0,
            true_odds_ev 1 (OddsConverter.decimal_odds odds - 1) (true_p.getD p), 0⟩
          false,
         .ok ⟨"EV-Kelly", 0, "EV < 1.5% — No edge", "low", 0,
            true_odds_ev 1 (OddsConverter.decimal_odds odds - 1) (true_p.getD p), 0⟩)) ∧
    (3/200 < true_odds_ev 1 (OddsConverter.decimal_odds odds - 1) (true_p.getD p) →
      ∃ w : Wager,
        ev_kelly p odds aggression true_p st = (record st w false, .ok w) ∧
        w.amount =
          min
            (quantize2 (st.bank *
              min (((OddsConverter.decimal_odds odds - 1) * p - (1 - p)) /
                    (OddsConverter.decimal_odds odds - 1) *
                  (1 + (true_odds_ev 1 (OddsConverter.decimal_odds odds - 1)
                      (true_p.getD p)) ^ aggression * 8))
                1))
            (st.bank * st.risk.max_risk) ∧
        w.amount ≤ st.bank * st.risk.max_risk) := by
  have hcb : check_bank st = .ok () := by
    rw [check_bank, if_neg (not_lt.mpr hbank)]
  constructor
  · intro h
    have h2 : (kelly_core p odds true_p).2 ≤ 3/200 := by
      rw [kelly_core_snd]; exact h
    simp only [ev_kelly, hcb, kelly_core_snd, h, if_true]
  · intro h
    have h2 : ¬ (kelly_core p odds true_p).2 ≤ 3/200 := by
      rw [kelly_core_snd]; exact not_le.mpr h
    have h1 : (kelly_core p odds true_p).1 =
        ((OddsConverter.decimal_odds odds - 1) * p - (1 - p)) /
          (OddsConverter.decimal_odds odds - 1) :=
      kelly_core_fst_of_pos p odds true_p (by linarith)
    have hcap : ∀ a b : ℚ,
        riskCap st.risk a b = .ok (min a (b * st.risk.max_risk)) := by
      intro a b
      rw [riskCap, if_neg (not_lt.mpr hdd)]
    refine ⟨⟨"EV-Kelly",
      min
        (quantize2 (st.bank *
          min (((OddsConverter.decimal_odds odds - 1) * p - (1 - p)) /
                (OddsConverter.decimal_odds odds - 1) *
              (1 + (true_odds_ev 1 (OddsConverter.decimal_odds odds - 1)
                  (true_p.getD p)) ^ aggression * 8))
            1))
        (st.bank * st.risk.max_risk),
      "EV-weighted",
      riskLevel st.risk
        (min (((OddsConverter.decimal_odds odds - 1) * p - (1 - p)) /
              (OddsConverter.decimal_odds odds - 1) *
            (1 + (true_odds_ev 1 (OddsConverter.decimal_odds odds - 1)
                (true_p.getD p)) ^ aggression * 8))
          1),
      min (((OddsConverter.decimal_odds odds - 1) * p - (1 - p)) /
            (OddsConverter.decimal_odds odds - 1) *
          (1 + (true_odds_ev 1 (OddsConverter.decimal_odds odds - 1)
              (true_p.getD p)) ^ aggression * 8))
        1,
      true_odds_ev 1 (OddsConverter.decimal_odds odds - 1) (true_p.getD p),
      1 + (true_odds_ev 1 (OddsConverter.decimal_odds odds - 1)
          (true_p.getD p)) ^ aggression * 8⟩, ?_, rfl, min_le_right _ _⟩
    simp only [ev_kelly, hcb, if_neg h2, hcap, h1, kelly_core_snd]
    rw [if_neg (not_le.mpr h)]

/-- C4 witness: bankroll 10,000, `p = 0.55`, odds −110 — the EV is 1/20,
above the 1.5% threshold, and the resulting positive stake is bounded by
35% of bankroll. -/
theorem c4_ev_kelly_witness :
    (3/200 : ℚ) <
      true_odds_ev 1 (OddsConverter.decimal_odds (.int (-110)) - 1)
        ((none : Option ℚ).getD (11/20)) ∧
    st10k.bank * st10k.risk.max_risk = 3500 ∧
    ((true_odds_ev 1 (OddsConverter.decimal_odds (.int (-110)) - 1)
        ((none : Option ℚ).getD (11/20)) ≤ 3/200 →
      ev_kelly (11/20) (.int (-110)) 2 none st10k =
        (record st10k ⟨"EV-Kelly", 0, "EV < 1.5% — No edge", "low", 0,
            true_odds_ev 1 (OddsConverter.decimal_odds (.int (-110)) - 1)
              ((none : Option ℚ).getD (11/20)), 0⟩ false,
         .ok ⟨"EV-Kelly", 0, "EV < 1.5% — No edge", "low", 0,
            true_odds_ev 1 (OddsConverter.decimal_odds (.int (-110)) - 1)
              ((none : Option ℚ).getD (11/20)), 0⟩)) ∧
    (3/200 < true_odds_ev 1 (OddsConverter.decimal_odds (.int (-110)) - 1)
        ((none : Option ℚ).getD (11/20)) →
      ∃ w : Wager,
        ev_kelly (11/20) (.int (-110)) 2 none st10k = (record st10k w false, .ok w) ∧
        w.amount =
          min
            (quantize2 (st10k.bank *
              min (((OddsConverter.decimal_odds (.int (-110)) - 1) * (11/20)
                      - (1 - 11/20)) /
                    (OddsConverter.decimal_odds (.int (-110)) - 1) *
                  (1 + (true_odds_ev 1 (OddsConverter.decimal_odds (.int (-110)) - 1)
                      ((none : Option ℚ).getD (11/20))) ^ 2 * 8))
                1))
            (st10k.bank * st10k.risk.max_risk) ∧
        w.amount ≤ st10k.bank * st10k.risk.max_risk)) :=
  ⟨by norm_num [true_odds_ev, OddsConverter.decimal_odds],
   by norm_num [st10k, initState, mkRiskManager],
   c4_ev_kelly st10k (11/20) (.int (-110)) 2 none
    (by norm_num) (by norm_num)
    (by norm_num [OddsConverter.decimal_odds])
    (by norm_num [st10k, initState])
    (by norm_num [st10k, initState, mkRiskManager])⟩


/-- C6 counterexample: decimal odds 2.0 (even money) converts to American
−100, and `decimal_odds(-100)` falls into the pass-through branch for ints in
(−101, 100), returning −100 — the round trip misses 2.0 by far more than
0.01. -/
theorem c6_counterexample :
    OddsConverter.decimal_odds (.int (OddsConverter.american_odds (.float 2))) = -100 ∧
    ¬ |OddsConverter.decimal_odds (.int (OddsConverter.american_odds (.float 2))) - 2|
        ≤ 1/100 := by
  have ham : OddsConverter.american_odds (.float 2) = -100 := by
    rw [OddsConverter.american_odds]
    norm_num [truncQ]
  have hdec : OddsConverter.decimal_odds (.int (-100)) = -100 := by
    rw [OddsConverter.decimal_odds]
    norm_num
  rw [ham, hdec]
  norm_num

/-- C6 amended: the decimal → American → decimal round trip recovers the
original within 0.01 for decimal odds above 2.0 and for decimal odds in
(1, 201/101] (American price ≤ −101); for decimal odds in (201/101, 2] the
synthesized American price is −100, which `decimal_odds` passes through
unchanged, so the round trip fails there. -/
theorem c6_roundtrip_amended (d : ℚ)
    (hd : 2 < d ∨ (1 < d ∧ d ≤ 201/101)) :
    |OddsConverter.decimal_odds (.int (OddsConverter.american_odds (.float d))) - d|
      ≤ 1/100 := by
  rcases hd with hd | ⟨hd1, hd2⟩
  · -- d > 2: American = ⌊(d−1)·100⌋ ≥ 100, decimal = 1 + a/100
    have hx : (100 : ℚ) < (d - 1) * 100 := by nlinarith
    have hnn : (0 : ℚ) ≤ (d - 1) * 100 := by linarith
    have ham : OddsConverter.american_odds (.float d) = ⌊(d - 1) * 100⌋ := by
      rw [OddsConverter.american_odds, if_pos hd, truncQ, if_pos hnn]
    have hge : (100 : ℤ) ≤ ⌊(d - 1) * 100⌋ := by
      apply Int.le_floor.mpr
      push_cast
      linarith
    have hfl : ((⌊(d - 1) * 100⌋ : ℤ) : ℚ) ≤ (d - 1) * 100 := Int.floor_le _
    have hfg : (d - 1) * 100 - 1 < ((⌊(d - 1) * 100⌋ : ℤ) : ℚ) := Int.sub_one_lt_floor _
    rw [ham, OddsConverter.decimal_odds, if_pos hge]
    rw [abs_le]
    constructor <;> push_cast <;> [linarith; linarith]
  · -- 1 < d ≤ 201/101: American = −⌊100/(d−1)⌋ ≤ −101, decimal = 1 + 100/n
    have hpos : (0 : ℚ) < d - 1 := by linarith
    have hy : (101 : ℚ) ≤ 100 / (d - 1) := by
      rw [le_div_iff₀ hpos]
      linarith
    have hq0 : -100 / (d - 1) < 0 := by
      apply div_neg_of_neg_of_pos <;> [norm_num; exact hpos]
    have hnot2 : ¬ (2 : ℚ) < d := by linarith
    have ham : OddsConverter.american_odds (.float d) = -⌊100 / (d - 1)⌋ := by
      rw [OddsConverter.american_odds, if_neg hnot2, truncQ,
        if_neg (by exact not_le.mpr hq0)]
      rw [show -(-100 / (d - 1)) = 100 / (d - 1) by ring]
    have hn : (101 : ℤ) ≤ ⌊100 / (d - 1)⌋ := by
      apply Int.le_floor.mpr
      push_cast
      exact hy
    have hnq : (101 : ℚ) ≤ ((⌊100 / (d - 1)⌋ : ℤ) : ℚ) := by
      exact_mod_cast hn
    have hfl : ((⌊100 / (d - 1)⌋ : ℤ) : ℚ) ≤ 100 / (d - 1) := Int.floor_le _
    have hfg : 100 / (d - 1) - 1 < ((⌊100 / (d - 1)⌋ : ℤ) : ℚ) := Int.sub_one_lt_floor _
    have hle : -⌊100 / (d - 1)⌋ ≤ (-101 : ℤ) := by omega
    have hnotge : ¬ (100 : ℤ) ≤ -⌊100 / (d - 1)⌋ := by omega
    rw [ham, OddsConverter.decimal_odds, if_neg hnotge, if_pos hle]
    have habs : |((-⌊100 / (d - 1)⌋ : ℤ) : ℚ)| = ((⌊100 / (d - 1)⌋ : ℤ) : ℚ) := by
      push_cast
      rw [abs_neg]
      exact abs_of_nonneg (by linarith)
    rw [habs]
    -- let n = ⌊100/(d−1)⌋, y = 100/(d−1); then d = 1 + 100/y and
    -- 0 ≤ 100/n − 100/y ≤ 1/100 because n ≤ y < n + 1 and n·y ≥ 101·101
    set nq : ℚ := ((⌊100 / (d - 1)⌋ : ℤ) : ℚ) with hnq_def
    have hnpos : (0 : ℚ) < nq := by linarith
    have hypos : (0 : ℚ) < 100 / (d - 1) := by positivity
    have hdry : d - 1 = 100 / (100 / (d - 1)) := by
      field_simp
    have hkey : 1 + 100 / nq - d = 100 / nq - 100 / (100 / (d - 1)) := by
      rw [show (100 : ℚ) / (100 / (d - 1)) = d - 1 from (hdry).symm]
      ring
    rw [abs_le]
    constructor
    · -- lower bound: the round trip never undershoots by more than 1/100
      have : 100 / (100 / (d - 1)) ≤ 100 / nq := by
        apply div_le_div_of_nonneg_left _ hnpos hfl
        norm_num
      rw [hkey] at *
      linarith [this]
    · -- upper bound
      have hprod : (101 : ℚ) * 101 ≤ nq * (100 / (d - 1)) := by
        nlinarith [hnq, hy]
      have hdiff : 100 / nq - 100 / (100 / (d - 1)) ≤ 1/100 := by
        rw [div_sub_div _ _ (ne_of_gt hnpos) (ne_of_gt hypos),
          div_le_div_iff₀ (by positivity) (by norm_num)]
        nlinarith [hfg, hprod]
      rw [hkey]
      linarith [hdiff]

/-- C6 witness: decimal odds 1.5 round-trip exactly (American −200). -/
theorem c6_roundtrip_witness :
    |OddsConverter.decimal_odds
        (.int (OddsConverter.american_odds (.float (3/2)))) - 3/2| ≤ 1/100 :=
  c6_roundtrip_amended (3/2) (Or.inr (by norm_num))

end WagerBrain
